import Mathlib

/-!
Verification development for the modbus-simulator repository.

The definitions below are a shallow embedding of the Python sources:

* `context.py` — `CustomModbusSparseDataBlock` with its `getValues` /
  `setValues` overrides implementing per-address error behaviors, and
  `CustomModbusSlaveContext` building per-register-type data blocks;
* `models.py` — `ModbusRegister` (with `to_dict` / `from_dict`),
  `ModbusDataStore` (with `add_register`) and the scaling stage of
  `encode_value`.

Python dictionaries keyed by integer addresses are embedded as association
lists `List (Nat × α)`; Python float fields are embedded as rationals `ℚ`
(every concrete number appearing in the claims is exactly representable);
the `time.sleep(60)` call in `getValues` is embedded as an explicit delay
counter accumulated alongside the result, so that timing behavior is data.
-/

namespace ModbusSim

/-- Lookup in an association list keyed by `Nat` (embedding of Python
`dict` access / `in` tests used by `context.py` and `models.py`). -/
def lookupA {α : Type} : List (Nat × α) → Nat → Option α
  | [], _ => none
  | (k, v) :: rest, a => if k = a then some v else lookupA rest a

/-- Store a key/value pair in an association list, replacing an existing
binding for the key (embedding of Python `d[k] = v`). -/
def storeA {α : Type} : List (Nat × α) → Nat → α → List (Nat × α)
  | [], k, v => [(k, v)]
  | (k', v') :: rest, k, v =>
      if k' = k then (k, v) :: rest else (k', v') :: storeA rest k v

/-- Error-behavior tags: the closed set of strings listed in
`models.py` `ERROR_BEHAVIORS` and dispatched on in `context.py`. -/
inductive ErrorBehavior where
  | NORMAL
  | ERROR_ILLEGAL_FUNCTION
  | ERROR_ILLEGAL_ADDRESS
  | ERROR_ILLEGAL_VALUE
  | ERROR_SERVER_FAILURE
  | ERROR_ACKNOWLEDGE
  | ERROR_SERVER_BUSY
  | ERROR_MEMORY_PARITY
  | ERROR_GATEWAY_PATH
  | ERROR_GATEWAY_TARGET
  | RETURN_ZERO
  | RETURN_MAX_UINT
  | RETURN_MAX_INT
  | NO_RESPONSE
  deriving DecidableEq, Repr

open ErrorBehavior

/-- The Modbus exception code raised by `CustomModbusSparseDataBlock.getValues`
for a behavior, `none` when the behavior does not raise (the `if` / `elif`
chain at `context.py` lines 52-69). -/
def errCodeOf : ErrorBehavior → Option Nat
  | ERROR_ILLEGAL_FUNCTION => some 1
  | ERROR_ILLEGAL_ADDRESS => some 2
  | ERROR_ILLEGAL_VALUE => some 3
  | ERROR_SERVER_FAILURE => some 4
  | ERROR_ACKNOWLEDGE => some 5
  | ERROR_SERVER_BUSY => some 6
  | ERROR_MEMORY_PARITY => some 8
  | ERROR_GATEWAY_PATH => some 10
  | ERROR_GATEWAY_TARGET => some 11
  | _ => none

/-- State of a `CustomModbusSparseDataBlock`: the sparse `values` dict
inherited from `ModbusSparseDataBlock` and the `error_map` dict passed to
`__init__` (`context.py` lines 19-28). -/
structure DataBlock where
  values : List (Nat × Nat)
  error_map : List (Nat × ErrorBehavior)
  deriving DecidableEq, Repr

/-- Outcome of a `getValues` call: a raised `ModbusException(code)`, a
`KeyError` from the underlying sparse dict (an address in range with no
entry), or the list of stored values. -/
inductive GetResult where
  | raised (code : Nat)
  | keyError
  | ok (vals : List Nat)
  deriving DecidableEq, Repr

/-- The error-checking loop of `getValues` (`context.py` lines 46-77) over a
list of addresses: returns the total seconds slept (60 per `NO_RESPONSE`
address encountered before the outcome is decided) and `some code` as soon
as the first raising behavior is met, `none` if the loop runs to the end.
Behaviors other than the nine `ERROR_*` tags and `NO_RESPONSE` (that is
`NORMAL` and the three `RETURN_*` tags) fall through every branch and do
nothing on the read path. -/
def checkErrors (em : List (Nat × ErrorBehavior)) : List Nat → Nat × Option Nat
  | [] => (0, none)
  | a :: rest =>
      match lookupA em a with
      | none => checkErrors em rest
      | some b =>
          match errCodeOf b with
          | some k => (0, some k)
          | none =>
              let d := if b = NO_RESPONSE then 60 else 0
              let r := checkErrors em rest
              (d + r.1, r.2)

/-- Reading each address of a list from the sparse `values` dict, as
`ModbusSparseDataBlock.getValues` does once the error loop has fallen
through; a missing address is a `KeyError`. -/
def readAll (values : List (Nat × Nat)) : List Nat → Option (List Nat)
  | [] => some []
  | a :: rest =>
      match lookupA values a, readAll values rest with
      | some v, some vs => some (v :: vs)
      | _, _ => none

/-- Embedding of `CustomModbusSparseDataBlock.getValues(address, count)`
(`context.py` lines 30-80): first the per-address error loop over the range
`[address, address + count)` in ascending order, then — only if no behavior
raised — the plain sparse read. The first component is the total time slept
in seconds. -/
def getValues (db : DataBlock) (address count : Nat) : Nat × GetResult :=
  let c := checkErrors db.error_map (List.range' address count)
  match c.2 with
  | some k => (c.1, GetResult.raised k)
  | none =>
      match readAll db.values (List.range' address count) with
      | some vs => (c.1, GetResult.ok vs)
      | none => (c.1, GetResult.keyError)

/-- One step of the value-coercion loop of `setValues` (`context.py` lines
98-122): a `RETURN_ZERO` / `RETURN_MAX_UINT` / `RETURN_MAX_INT` behavior
overwrites the incoming value with its sentinel; the nine `ERROR_*` tags hit
the explicit `pass` branch ("these are handled in getValues") and every
other behavior misses every branch, so the value is kept. -/
def coerceOne (b : Option ErrorBehavior) (v : Nat) : Nat :=
  match b with
  | some RETURN_ZERO => 0
  | some RETURN_MAX_UINT => 0xFFFF
  | some RETURN_MAX_INT => 0x7FFF
  | _ => v

/-- The loop itself, walking the incoming values alongside their target
addresses. -/
def coerceValues (em : List (Nat × ErrorBehavior)) : Nat → List Nat → List Nat
  | _, [] => []
  | a, v :: vs => coerceOne (lookupA em a) v :: coerceValues em (a + 1) vs

/-- Storing a list of values at consecutive addresses, as
`ModbusSparseDataBlock.setValues` does (creating or replacing entries). -/
def storeAll (values : List (Nat × Nat)) : Nat → List Nat → List (Nat × Nat)
  | _, [] => values
  | a, v :: vs => storeAll (storeA values a v) (a + 1) vs

/-- Embedding of `CustomModbusSparseDataBlock.setValues(address, values)`
(`context.py` lines 82-125): coerce the incoming values per the error map,
then store them. The method raises nothing and checks nothing else — in
particular the nine `ERROR_*` behaviors do not reject the write. -/
def setValues (db : DataBlock) (address : Nat) (vals : List Nat) : DataBlock :=
  { db with values := storeAll db.values address (coerceValues db.error_map address vals) }

example : getValues ⟨[(3, 42)], [(3, RETURN_MAX_UINT)]⟩ 3 1 = (0, GetResult.ok [42]) := by decide

example : getValues ⟨[(5, 1), (6, 2), (7, 3)], [(5, NO_RESPONSE), (6, ERROR_ILLEGAL_ADDRESS)]⟩ 5 3
    = (60, GetResult.raised 2) := by decide

example : setValues ⟨[(10, 1)], [(10, ERROR_ILLEGAL_ADDRESS)]⟩ 10 [5]
    = ⟨[(10, 5)], [(10, ERROR_ILLEGAL_ADDRESS)]⟩ := by decide

example : getValues ⟨[(3, 7)], [(3, NO_RESPONSE)]⟩ 3 1 = (60, GetResult.ok [7]) := by decide

/-- Data-type tags: the closed set of keys of `models.py` `DATA_TYPES`. -/
inductive DataType where
  | UINT16
  | INT16
  | UINT32
  | INT32
  | FLOAT32
  | UINT64
  | INT64
  | FLOAT64
  | STRING
  | BOOLEAN
  deriving DecidableEq, Repr

/-- Register-type tags: the closed set of keys of `models.py`
`REGISTER_TYPES`. -/
inductive RegisterType where
  | COIL
  | DISCRETE_INPUT
  | INPUT_REGISTER
  | HOLDING_REGISTER
  deriving DecidableEq, Repr

/-- A register's `value` field, `Union[int, float, bool, str]` in the
source; Python floats are embedded as rationals. -/
inductive RegValue where
  | int (i : Int)
  | rat (q : ℚ)
  | bool (b : Bool)
  | str (s : String)
  deriving DecidableEq, Repr

/-- Embedding of Python `float(value)` as used by `encode_value`
(`models.py` line 199): ints and bools convert exactly, floats stay; a
text value is left out (`float` of arbitrary text raises in Python and no
claim touches it). -/
def toRatOpt : RegValue → Option ℚ
  | RegValue.int i => some (i : ℚ)
  | RegValue.rat q => some q
  | RegValue.bool b => some (if b then 1 else 0)
  | RegValue.str _ => none

/-- Embedding of `ModbusRegister` (`models.py` lines 60-88): the eight
constructor parameters followed by the five fields initialized to defaults
in `__init__` and overwritten by `from_dict`. `word_order` and `byte_order`
are the literal strings "BIG" / "LITTLE" of the source. -/
structure ModbusRegister where
  address : Nat
  name : String
  value : RegValue
  data_type : DataType
  register_type : RegisterType
  enabled : Bool
  error_behavior : ErrorBehavior
  description : String
  scaling_factor : ℚ
  offset : ℚ
  unit : String
  word_order : String
  byte_order : String
  deriving DecidableEq, Repr

/-- The dictionary produced by `ModbusRegister.to_dict` and consumed by
`from_dict`: the eight keys `from_dict` reads with `data[...]` are mandatory,
the five it reads with `data.get(...)` are optional. -/
structure RegisterDict where
  address : Nat
  name : String
  value : RegValue
  data_type : DataType
  register_type : RegisterType
  enabled : Bool
  error_behavior : ErrorBehavior
  description : String
  scaling_factor : Option ℚ
  offset : Option ℚ
  unit : Option String
  word_order : Option String
  byte_order : Option String
  deriving DecidableEq, Repr

/-- Embedding of `ModbusRegister.to_dict` (`models.py` lines 90-108): every
one of the thirteen fields is emitted. -/
def ModbusRegister.to_dict (r : ModbusRegister) : RegisterDict where
  address := r.address
  name := r.name
  value := r.value
  data_type := r.data_type
  register_type := r.register_type
  enabled := r.enabled
  error_behavior := r.error_behavior
  description := r.description
  scaling_factor := some r.scaling_factor
  offset := some r.offset
  unit := some r.unit
  word_order := some r.word_order
  byte_order := some r.byte_order

/-- Embedding of `ModbusRegister.from_dict` (`models.py` lines 110-130):
eight positional constructor arguments, then the five `data.get(key,
default)` assignments with the source's defaults. -/
def ModbusRegister.from_dict (d : RegisterDict) : ModbusRegister where
  address := d.address
  name := d.name
  value := d.value
  data_type := d.data_type
  register_type := d.register_type
  enabled := d.enabled
  error_behavior := d.error_behavior
  description := d.description
  scaling_factor := d.scaling_factor.getD 1
  offset := d.offset.getD 0
  unit := d.unit.getD ""
  word_order := d.word_order.getD "BIG"
  byte_order := d.byte_order.getD "BIG"

/-- Embedding of `ModbusDataStore` (`models.py` lines 133-141): a single
dictionary keyed by the numeric address alone — there is one namespace for
all four register types. -/
structure ModbusDataStore where
  registers : List (Nat × ModbusRegister)
  deriving DecidableEq, Repr

/-- Embedding of `ModbusDataStore.add_register` (`models.py` lines 143-148):
`if register.address not in self.registers: self.registers[...] = register`
— a duplicate address (of any register type) leaves the store untouched and
signals nothing. -/
def ModbusDataStore.add_register (s : ModbusDataStore) (r : ModbusRegister) : ModbusDataStore :=
  match lookupA s.registers r.address with
  | some _ => s
  | none => ⟨storeA s.registers r.address r⟩

/-- The substitution applied by `encode_value` when the register is disabled
(`models.py` lines 189-195). -/
def effectiveValue (r : ModbusRegister) : RegValue :=
  if r.enabled then r.value
  else
    match r.error_behavior with
    | RETURN_ZERO => RegValue.int 0
    | RETURN_MAX_UINT => RegValue.int 0xFFFF
    | RETURN_MAX_INT => RegValue.int 0x7FFF
    | _ => r.value

/-- The scaling stage of `encode_value` (`models.py` lines 197-199), the
value handed to the word-splitting builder calls: for a data type other
than `BOOLEAN` and `STRING` the source computes
`(float(value) - register.offset) / register.scaling_factor`; for `BOOLEAN`
and `STRING` the value passes through untouched. (Python would raise
`ZeroDivisionError` on `scaling_factor = 0`; in `ℚ` that division is the
junk value `0` — no claim divides by zero.) -/
def scaleStage (r : ModbusRegister) : Option RegValue :=
  if r.data_type = DataType.BOOLEAN ∨ r.data_type = DataType.STRING then
    some (effectiveValue r)
  else
    (toRatOpt (effectiveValue r)).map fun q => RegValue.rat ((q - r.offset) / r.scaling_factor)

example :
    scaleStage
      ⟨7, "t", RegValue.int 50, DataType.UINT16, RegisterType.HOLDING_REGISTER,
        true, NORMAL, "", 2, 10, "", "BIG", "BIG"⟩
      = some (RegValue.rat 20) := by
  simp only [scaleStage, effectiveValue, toRatOpt]
  norm_num
  decide

/-! Helper lemmas about the association-list primitives and the loops of
`getValues` / `setValues`. -/

theorem lookupA_storeA_self {α : Type} (m : List (Nat × α)) (k : Nat) (v : α) :
    lookupA (storeA m k v) k = some v := by
  induction m with
  | nil => simp [storeA, lookupA]
  | cons p rest ih =>
      obtain ⟨k', v'⟩ := p
      by_cases h : k' = k
      · subst h; simp [storeA, lookupA]
      · simp [storeA, lookupA, h, ih]

theorem lookupA_storeA_ne {α : Type} (m : List (Nat × α)) (k k' : Nat) (v : α)
    (h : k' ≠ k) : lookupA (storeA m k v) k' = lookupA m k' := by
  induction m with
  | nil => simp [storeA, lookupA, Ne.symm h]
  | cons p rest ih =>
      obtain ⟨k0, v0⟩ := p
      by_cases h0 : k0 = k
      · subst h0
        simp [storeA, lookupA, Ne.symm h]
      · simp only [storeA, if_neg h0, lookupA]
        by_cases h1 : k0 = k'
        · simp [h1]
        · simp [h1, ih]

theorem lookupA_storeAll_lt : ∀ (ws : List Nat) (m : List (Nat × Nat)) (a k : Nat),
    k < a → lookupA (storeAll m a ws) k = lookupA m k := by
  intro ws
  induction ws with
  | nil => intro m a k _; rfl
  | cons w ws ih =>
      intro m a k h
      simp only [storeAll]
      rw [ih (storeA m a w) (a + 1) k (by omega)]
      exact lookupA_storeA_ne m a k w (by omega)

theorem lookupA_storeAll_get : ∀ (ws : List Nat) (m : List (Nat × Nat)) (a i : Nat)
    (hi : i < ws.length),
    lookupA (storeAll m a ws) (a + i) = some (ws.get ⟨i, hi⟩) := by
  intro ws
  induction ws with
  | nil => intro m a i hi; simp at hi
  | cons w ws ih =>
      intro m a i hi
      cases i with
      | zero =>
          simp only [storeAll, Nat.add_zero]
          rw [lookupA_storeAll_lt ws (storeA m a w) (a + 1) a (by omega)]
          simpa using lookupA_storeA_self m a w
      | succ j =>
          simp only [storeAll]
          have hadd : a + (j + 1) = (a + 1) + j := by omega
          rw [hadd, ih (storeA m a w) (a + 1) j (by simpa using hi)]
          rfl

theorem length_coerceValues (em : List (Nat × ErrorBehavior)) :
    ∀ (a : Nat) (vs : List Nat), (coerceValues em a vs).length = vs.length := by
  intro a vs
  induction vs generalizing a with
  | nil => rfl
  | cons v vs ih => simp [coerceValues, ih]

theorem get_coerceValues (em : List (Nat × ErrorBehavior)) :
    ∀ (vs : List Nat) (a i : Nat) (hi : i < vs.length)
      (hi' : i < (coerceValues em a vs).length),
      (coerceValues em a vs).get ⟨i, hi'⟩ = coerceOne (lookupA em (a + i)) (vs.get ⟨i, hi⟩) := by
  intro vs
  induction vs with
  | nil => intro a i hi _; simp at hi
  | cons v vs ih =>
      intro a i hi hi'
      cases i with
      | zero => simp [coerceValues]
      | succ j =>
          have hadd : a + (j + 1) = (a + 1) + j := by omega
          rw [hadd]
          exact ih (a + 1) j (by simpa using hi) (by simpa [coerceValues] using hi')

theorem coerceOne_err (b : ErrorBehavior) (k v : Nat) (hk : errCodeOf b = some k) :
    coerceOne (some b) v = v := by
  cases b <;> first | rfl | simp [errCodeOf] at hk

/-- Where a write lands: `setValues db a vs` stores, at address `a + i`, the
incoming value coerced through `coerceOne` per the error map. -/
theorem setValues_lookup (db : DataBlock) (a : Nat) (vs : List Nat) (i : Nat)
    (hi : i < vs.length) :
    lookupA (setValues db a vs).values (a + i)
      = some (coerceOne (lookupA db.error_map (a + i)) (vs.get ⟨i, hi⟩)) := by
  have hlen : i < (coerceValues db.error_map a vs).length := by
    rw [length_coerceValues]; exact hi
  unfold setValues
  rw [lookupA_storeAll_get (coerceValues db.error_map a vs) db.values a i hlen]
  rw [get_coerceValues db.error_map vs a i hi hlen]

/-- The error loop raises the code of the first address in the list whose
behavior raises, independently of what non-raising behaviors precede it. -/
theorem checkErrors_snd_first (em : List (Nat × ErrorBehavior)) :
    ∀ (l1 : List Nat) (l2 : List Nat) (addr k : Nat),
    (∀ a ∈ l1, (lookupA em a).bind errCodeOf = none) →
    (lookupA em addr).bind errCodeOf = some k →
    (checkErrors em (l1 ++ addr :: l2)).2 = some k := by
  intro l1
  induction l1 with
  | nil =>
      intro l2 addr k _ h2
      cases hb : lookupA em addr with
      | none => rw [hb] at h2; simp at h2
      | some b =>
          rw [hb] at h2
          simp only [Option.some_bind] at h2
          simp [checkErrors, hb, h2]
  | cons a l1 ih =>
      intro l2 addr k h1 h2
      have hrec := ih l2 addr k (fun x hx => h1 x (List.mem_cons_of_mem _ hx)) h2
      have ha := h1 a (List.mem_cons_self a l1)
      cases hb : lookupA em a with
      | none => simpa [checkErrors, hb] using hrec
      | some b =>
          rw [hb] at ha
          simp only [Option.some_bind] at ha
          simpa [checkErrors, hb, ha] using hrec

/-! Claim theorems. -/

/-- C1 counterexample: address 3 configured `RETURN_MAX_UINT` with stored
value 42 — `getValues` returns the stored 42, not the claimed `0xFFFF`
substitute (the read path of `context.py` performs no substitution). -/
theorem read_return_max_uint_not_substituted :
    getValues ⟨[(3, 42)], [(3, RETURN_MAX_UINT)]⟩ 3 1 = (0, GetResult.ok [42]) ∧
    GetResult.ok [42] ≠ GetResult.ok [0xFFFF] := by
  decide

/-- C1 (amended): for an address configured `RETURN_MAX_UINT` with stored
value `v`, a read returns the stored `v` unchanged (no read-path
substitution); the substitution instead happens destructively on the write
path — `setValues` stores `0xFFFF` in place of any incoming value at that
address — and with the behavior reset to `Normal` (address absent from the
error map) a read returns whatever is stored, which a read alone never
changes. -/
theorem getValues_return_max_uint_passthrough (values : List (Nat × Nat))
    (em em' : List (Nat × ErrorBehavior)) (addr v w : Nat)
    (hb : lookupA em addr = some RETURN_MAX_UINT)
    (hv : lookupA values addr = some v)
    (hn : lookupA em' addr = none) :
    getValues ⟨values, em⟩ addr 1 = (0, GetResult.ok [v]) ∧
    lookupA (setValues ⟨values, em⟩ addr [w]).values addr = some 0xFFFF ∧
    getValues ⟨values, em'⟩ addr 1 = (0, GetResult.ok [v]) := by
  refine ⟨?_, ?_, ?_⟩
  · simp [getValues, checkErrors, readAll, hb, hv, errCodeOf]
  · have h := setValues_lookup ⟨values, em⟩ addr [w] 0 (by simp)
    simpa [hb, coerceOne] using h
  · simp [getValues, checkErrors, readAll, hn, hv]

/-- Witness for the C1 theorem at address 3, stored value 42, incoming
write value 7. -/
theorem getValues_return_max_uint_passthrough_witness :
    getValues ⟨[(3, 42)], [(3, RETURN_MAX_UINT)]⟩ 3 1 = (0, GetResult.ok [42]) ∧
    lookupA (setValues ⟨[(3, 42)], [(3, RETURN_MAX_UINT)]⟩ 3 [7]).values 3 = some 0xFFFF ∧
    getValues ⟨[(3, 42)], []⟩ 3 1 = (0, GetResult.ok [42]) :=
  getValues_return_max_uint_passthrough [(3, 42)] [(3, RETURN_MAX_UINT)] [] 3 42 7
    (by decide) (by decide) (by decide)

/-- C2 counterexample: over the range `[5, 8)` address 5 demands Stall
(`NO_RESPONSE`) — the first address demanding Raise or Stall — yet the
request is not aborted with a stall: evaluation sleeps 60 seconds,
continues to address 6 and raises its exception 2 instead. -/
theorem stall_does_not_short_circuit :
    lookupA ([(5, NO_RESPONSE), (6, ERROR_ILLEGAL_ADDRESS)] : List (Nat × ErrorBehavior)) 5
      = some NO_RESPONSE ∧
    getValues ⟨[(5, 1), (6, 2), (7, 3)], [(5, NO_RESPONSE), (6, ERROR_ILLEGAL_ADDRESS)]⟩ 5 3
      = (60, GetResult.raised 2) := by
  decide

/-- C2 (amended): a multi-address read evaluates the fault policy per
address in ascending order, and the first address whose behavior raises
decides the whole request: the request raises exactly that code and no
values are returned (the read path never mutates storage, so no partial
success exists). Addresses before it whose behaviors do not raise — among
them `NO_RESPONSE`, which only adds delay — cannot preempt it. -/
theorem getValues_first_raise_wins (db : DataBlock) (address count addr k : Nat)
    (hmem : addr ∈ List.range' address count)
    (haddr : (lookupA db.error_map addr).bind errCodeOf = some k)
    (hbefore : ∀ a ∈ List.range' address count, a < addr →
      (lookupA db.error_map a).bind errCodeOf = none) :
    getValues db address count
      = ((checkErrors db.error_map (List.range' address count)).1, GetResult.raised k) := by
  have hs : (checkErrors db.error_map (List.range' address count)).2 = some k := by
    obtain ⟨hle, hlt⟩ := List.mem_range'_1.mp hmem
    have hsplit : List.range' address count
        = List.range' address (addr - address)
          ++ (addr :: List.range' (addr + 1) (count - (addr - address) - 1)) := by
      have h3 : address + (addr - address) = addr := by omega
      have h4 : (count - (addr - address)) + (addr - address) = count := by omega
      have happ := List.range'_append_1 address (addr - address) (count - (addr - address))
      rw [h3, h4] at happ
      rw [← happ]
      congr 1
      have h5 : count - (addr - address) = (count - (addr - address) - 1) + 1 := by omega
      rw [h5, List.range'_succ]
      simp
    rw [hsplit]
    apply checkErrors_snd_first db.error_map _ _ addr k
    · intro a ha
      obtain ⟨ha1, ha2⟩ := List.mem_range'_1.mp ha
      exact hbefore a (List.mem_range'_1.mpr (by omega)) (by omega)
    · exact haddr
  simp only [getValues]
  rw [hs]

/-- Witness for the C2 theorem: the spec's own example — range `[5, 8)`,
address 6 configured `ERROR_ILLEGAL_ADDRESS`, others normal — raises
exception 2 for the whole request. -/
theorem getValues_first_raise_wins_witness :
    getValues ⟨[(5, 1), (6, 2), (7, 3)], [(6, ERROR_ILLEGAL_ADDRESS)]⟩ 5 3
      = (0, GetResult.raised 2) := by
  have h := getValues_first_raise_wins
    ⟨[(5, 1), (6, 2), (7, 3)], [(6, ERROR_ILLEGAL_ADDRESS)]⟩ 5 3 6 2
    (by decide) (by decide) (by decide)
  exact h.trans (by decide)

/-- C3 counterexample: address 10 is configured `ERROR_ILLEGAL_ADDRESS`, yet
writing 5 to it raises nothing and mutates storage from 1 to 5 — the write
is not rejected before mutation. -/
theorem err_write_not_rejected :
    setValues ⟨[(10, 1)], [(10, ERROR_ILLEGAL_ADDRESS)]⟩ 10 [5]
      = ⟨[(10, 5)], [(10, ERROR_ILLEGAL_ADDRESS)]⟩ ∧
    ([(10, 5)] : List (Nat × Nat)) ≠ [(10, 1)] := by
  decide

/-- C3 (amended): a write whose target range contains an `ERROR_*`-configured
address is not rejected: `setValues` raises nothing, the incoming value
lands in storage unchanged at that address (the `ERROR_*` tags hit the
`pass` branch of the coercion loop), and the configured exception code
surfaces only on a subsequent read of that address. -/
theorem setValues_err_write_lands (db : DataBlock) (a : Nat) (vs : List Nat)
    (i : Nat) (hi : i < vs.length) (b : ErrorBehavior) (k : Nat)
    (hb : lookupA db.error_map (a + i) = some b) (hk : errCodeOf b = some k) :
    lookupA (setValues db a vs).values (a + i) = some (vs.get ⟨i, hi⟩) ∧
    getValues (setValues db a vs) (a + i) 1 = (0, GetResult.raised k) := by
  constructor
  · rw [setValues_lookup db a vs i hi, hb, coerceOne_err b k _ hk]
  · simp [getValues, checkErrors, setValues, hb, hk]

/-- Witness for the C3 theorem: writing 5 to `ERROR_ILLEGAL_ADDRESS`-configured
address 10 stores 5 and the next read of address 10 raises exception 2. -/
theorem setValues_err_write_lands_witness :
    lookupA (setValues ⟨[(10, 1)], [(10, ERROR_ILLEGAL_ADDRESS)]⟩ 10 [5]).values 10
      = some 5 ∧
    getValues (setValues ⟨[(10, 1)], [(10, ERROR_ILLEGAL_ADDRESS)]⟩ 10 [5]) 10 1
      = (0, GetResult.raised 2) := by
  have h := setValues_err_write_lands ⟨[(10, 1)], [(10, ERROR_ILLEGAL_ADDRESS)]⟩ 10 [5] 0
    (by decide) ERROR_ILLEGAL_ADDRESS 2 (by decide) (by decide)
  simpa using h

/-- C5: reading an address whose configured behavior is one of the nine
`ERROR_*` tags raises the Modbus exception with exactly the claimed numeric
code: IllegalFunction 1, IllegalAddress 2, IllegalValue 3, ServerFailure 4,
Acknowledge 5, ServerBusy 6, MemoryParity 8, GatewayPath 10,
GatewayTarget 11. -/
theorem getValues_err_exact_codes (db : DataBlock) (addr : Nat) (b : ErrorBehavior) (k : Nat)
    (hb : lookupA db.error_map addr = some b)
    (hk : (b, k) ∈ ([(ERROR_ILLEGAL_FUNCTION, 1), (ERROR_ILLEGAL_ADDRESS, 2),
      (ERROR_ILLEGAL_VALUE, 3), (ERROR_SERVER_FAILURE, 4), (ERROR_ACKNOWLEDGE, 5),
      (ERROR_SERVER_BUSY, 6), (ERROR_MEMORY_PARITY, 8), (ERROR_GATEWAY_PATH, 10),
      (ERROR_GATEWAY_TARGET, 11)] : List (ErrorBehavior × Nat))) :
    getValues db addr 1 = (0, GetResult.raised k) := by
  have hall : ∀ p ∈ ([(ERROR_ILLEGAL_FUNCTION, 1), (ERROR_ILLEGAL_ADDRESS, 2),
      (ERROR_ILLEGAL_VALUE, 3), (ERROR_SERVER_FAILURE, 4), (ERROR_ACKNOWLEDGE, 5),
      (ERROR_SERVER_BUSY, 6), (ERROR_MEMORY_PARITY, 8), (ERROR_GATEWAY_PATH, 10),
      (ERROR_GATEWAY_TARGET, 11)] : List (ErrorBehavior × Nat)),
      errCodeOf p.1 = some p.2 := by decide
  have hck : errCodeOf b = some k := hall (b, k) hk
  simp [getValues, checkErrors, hb, hck]

/-- Witness for the C5 theorem: `ERROR_MEMORY_PARITY` at address 4 raises
code 8. -/
theorem getValues_err_exact_codes_witness :
    getValues ⟨[], [(4, ERROR_MEMORY_PARITY)]⟩ 4 1 = (0, GetResult.raised 8) :=
  getValues_err_exact_codes ⟨[], [(4, ERROR_MEMORY_PARITY)]⟩ 4 ERROR_MEMORY_PARITY 8
    (by decide) (by decide)

/-- C9 counterexample: a read of `NO_RESPONSE`-configured address 9 does not
stall indefinitely — it sleeps a fixed 60 seconds and then returns the
stored value 5 as a normal success payload, on its own. -/
theorem no_response_read_completes :
    getValues ⟨[(9, 5)], [(9, NO_RESPONSE)]⟩ 9 1 = (60, GetResult.ok [5]) := by
  decide

/-- C9 (amended): a read of a `NO_RESPONSE`-configured address sleeps a
fixed 60 seconds and then completes normally on its own, returning the
stored value. -/
theorem getValues_no_response_delay_then_ok (values : List (Nat × Nat))
    (em : List (Nat × ErrorBehavior)) (addr v : Nat)
    (h1 : lookupA em addr = some NO_RESPONSE)
    (h2 : lookupA values addr = some v) :
    getValues ⟨values, em⟩ addr 1 = (60, GetResult.ok [v]) := by
  simp [getValues, checkErrors, readAll, h1, h2, errCodeOf]

/-- Witness for the C9 theorem at address 3, stored value 7. -/
theorem getValues_no_response_delay_then_ok_witness :
    getValues ⟨[(3, 7)], [(3, NO_RESPONSE)]⟩ 3 1 = (60, GetResult.ok [7]) :=
  getValues_no_response_delay_then_ok [(3, 7)] [(3, NO_RESPONSE)] 3 7
    (by decide) (by decide)

/-- C6: the scaling stage of `encode_value` applies
`(value - offset) / scalingFactor` to the value of every enabled register
whose data type is neither `BOOLEAN` nor `STRING`, before the
word-splitting builder call; `BOOLEAN` and `STRING` values pass through
with no scaling or offset applied. -/
theorem scaleStage_scaling_law (r : ModbusRegister) (hen : r.enabled = true) :
    (∀ q : ℚ, toRatOpt r.value = some q →
      r.data_type ≠ DataType.BOOLEAN → r.data_type ≠ DataType.STRING →
      scaleStage r = some (RegValue.rat ((q - r.offset) / r.scaling_factor))) ∧
    ((r.data_type = DataType.BOOLEAN ∨ r.data_type = DataType.STRING) →
      scaleStage r = some r.value) := by
  have heff : effectiveValue r = r.value := by simp [effectiveValue, hen]
  constructor
  · intro q hq hb hs
    rw [scaleStage, if_neg (by simp [hb, hs]), heff, hq]
    rfl
  · intro h
    rw [scaleStage, if_pos h, heff]

/-- Witness for the C6 theorem: the spec's example — scaling factor 2,
offset 10, logical value 50 — yields wire value 20 before word-splitting. -/
theorem scaleStage_scaling_law_witness :
    scaleStage ⟨3, "s", RegValue.int 50, DataType.UINT16, RegisterType.HOLDING_REGISTER,
      true, NORMAL, "scaled", 2, 10, "u", "BIG", "BIG"⟩ = some (RegValue.rat 20) := by
  have h := (scaleStage_scaling_law ⟨3, "s", RegValue.int 50, DataType.UINT16,
    RegisterType.HOLDING_REGISTER, true, NORMAL, "scaled", 2, 10, "u", "BIG", "BIG"⟩ rfl).1
    _ rfl (by decide) (by decide)
  rw [h]
  norm_num

/-- C7 counterexample: adding a second register at the already-occupied
address 1 leaves the store holding the first register and signals nothing —
`add_register` has no failure outcome, so no `DuplicateAddress` error
exists to propagate. -/
theorem add_register_duplicate_silent :
    ModbusDataStore.add_register
      ⟨[(1, ⟨1, "first", RegValue.int 1, DataType.UINT16, RegisterType.HOLDING_REGISTER,
        true, NORMAL, "", 1, 0, "", "BIG", "BIG"⟩)]⟩
      ⟨1, "second", RegValue.int 2, DataType.UINT16, RegisterType.HOLDING_REGISTER,
        true, NORMAL, "", 1, 0, "", "BIG", "BIG"⟩
      = ⟨[(1, ⟨1, "first", RegValue.int 1, DataType.UINT16, RegisterType.HOLDING_REGISTER,
        true, NORMAL, "", 1, 0, "", "BIG", "BIG"⟩)]⟩ ∧
    ("first" : String) ≠ "second" :=
  ⟨rfl, by decide⟩

/-- C7 (amended): `add_register` on an address already present leaves the
store exactly as it was: the existing register is silently kept, nothing is
overwritten, and no failure is signalled — the operation has no failure
outcome at all. -/
theorem add_register_duplicate_keeps_existing (s : ModbusDataStore) (r : ModbusRegister)
    (h : (lookupA s.registers r.address).isSome = true) :
    ModbusDataStore.add_register s r = s := by
  cases hl : lookupA s.registers r.address with
  | none => rw [hl] at h; simp at h
  | some r0 => simp [ModbusDataStore.add_register, hl]

/-- Witness for the C7 theorem at address 2. -/
theorem add_register_duplicate_keeps_existing_witness :
    ModbusDataStore.add_register
      ⟨[(2, ⟨2, "kept", RegValue.int 3, DataType.UINT16, RegisterType.INPUT_REGISTER,
        true, NORMAL, "", 1, 0, "", "BIG", "BIG"⟩)]⟩
      ⟨2, "dropped", RegValue.int 4, DataType.UINT16, RegisterType.INPUT_REGISTER,
        true, NORMAL, "", 1, 0, "", "BIG", "BIG"⟩
      = ⟨[(2, ⟨2, "kept", RegValue.int 3, DataType.UINT16, RegisterType.INPUT_REGISTER,
        true, NORMAL, "", 1, 0, "", "BIG", "BIG"⟩)]⟩ :=
  add_register_duplicate_keeps_existing _ _ (by decide)

/-- C8 counterexample: a holding register and a coil with the same numeric
address 1 cannot coexist: the store is keyed by the numeric address alone,
so `add_register` drops the coil even though its register type differs. -/
theorem cross_type_same_address_not_kept :
    ModbusDataStore.add_register
      ⟨[(1, ⟨1, "hr", RegValue.int 1, DataType.UINT16, RegisterType.HOLDING_REGISTER,
        true, NORMAL, "", 1, 0, "", "BIG", "BIG"⟩)]⟩
      ⟨1, "coil", RegValue.bool true, DataType.BOOLEAN, RegisterType.COIL,
        true, NORMAL, "", 1, 0, "", "BIG", "BIG"⟩
      = ⟨[(1, ⟨1, "hr", RegValue.int 1, DataType.UINT16, RegisterType.HOLDING_REGISTER,
        true, NORMAL, "", 1, 0, "", "BIG", "BIG"⟩)]⟩ ∧
    RegisterType.HOLDING_REGISTER ≠ RegisterType.COIL :=
  ⟨rfl, by decide⟩

/-- C8 (amended): address uniqueness in `ModbusDataStore` is global, not per
register type: the store is one address-keyed map, so while a register of
one type occupies an address, `add_register` silently refuses a register of
any other type at the same numeric address — the four register types do not
get independent address namespaces. -/
theorem add_register_single_namespace (s : ModbusDataStore) (r0 r : ModbusRegister)
    (h0 : lookupA s.registers r.address = some r0)
    (_hty : r.register_type ≠ r0.register_type) :
    ModbusDataStore.add_register s r = s ∧
    lookupA (ModbusDataStore.add_register s r).registers r.address = some r0 := by
  have he : ModbusDataStore.add_register s r = s := by
    simp [ModbusDataStore.add_register, h0]
  exact ⟨he, by rw [he, h0]⟩

/-- Witness for the C8 theorem: an input register occupies address 6; a
discrete input at address 6 is refused. -/
theorem add_register_single_namespace_witness :
    ModbusDataStore.add_register
      ⟨[(6, ⟨6, "ir", RegValue.int 9, DataType.UINT16, RegisterType.INPUT_REGISTER,
        true, NORMAL, "", 1, 0, "", "BIG", "BIG"⟩)]⟩
      ⟨6, "di", RegValue.bool false, DataType.BOOLEAN, RegisterType.DISCRETE_INPUT,
        true, NORMAL, "", 1, 0, "", "BIG", "BIG"⟩
      = ⟨[(6, ⟨6, "ir", RegValue.int 9, DataType.UINT16, RegisterType.INPUT_REGISTER,
        true, NORMAL, "", 1, 0, "", "BIG", "BIG"⟩)]⟩ ∧
    lookupA (ModbusDataStore.add_register
      ⟨[(6, ⟨6, "ir", RegValue.int 9, DataType.UINT16, RegisterType.INPUT_REGISTER,
        true, NORMAL, "", 1, 0, "", "BIG", "BIG"⟩)]⟩
      ⟨6, "di", RegValue.bool false, DataType.BOOLEAN, RegisterType.DISCRETE_INPUT,
        true, NORMAL, "", 1, 0, "", "BIG", "BIG"⟩).registers 6
      = some ⟨6, "ir", RegValue.int 9, DataType.UINT16, RegisterType.INPUT_REGISTER,
        true, NORMAL, "", 1, 0, "", "BIG", "BIG"⟩ :=
  add_register_single_namespace _ _ _ rfl (by decide)

/-- C10: for every `ModbusRegister`, `from_dict (to_dict r)` restores a
register equal to `r` in all thirteen fields. -/
theorem register_dict_roundtrip (r : ModbusRegister) :
    ModbusRegister.from_dict (ModbusRegister.to_dict r) = r := rfl

/-! Codec (spec §4.1). The repository performs encoding by delegating to the
external pymodbus `BinaryPayloadBuilder` (in `ModbusDataStore.encode_value`)
and contains no decoder at all under `src/`, so the word-level codec below
is modelled from the spec. -/

/-- Byte/word ordering tag (spec §3: `byteOrder, wordOrder : enum{Big,
Little}` — the source stores the strings "BIG" / "LITTLE" and maps them to
the pymodbus `Endian` constants). -/
inductive Endianness where
  | Big
  | Little
  deriving DecidableEq, Repr

/-- Modelled from the spec: the logical values fed to §4.1's codec, which
the repository does not implement itself. Integer-typed values are `Int`
(encode wraps to the type's width); the two IEEE-754 types are carried as
their raw 32- / 64-bit patterns — the spec says they are "standard IEEE-754
32/64-bit bit patterns reinterpreted as the requisite word sequence", so the
codec acts on the patterns and never does float arithmetic; strings are
lists of byte-sized character codes ("one word per two characters
(padded)"); booleans are "one word whose low bit holds the flag". -/
inductive CodecValue where
  | int (i : Int)
  | bits32 (n : Nat)
  | bits64 (n : Nat)
  | chars (cs : List Nat)
  | flag (b : Bool)
  deriving DecidableEq, Repr

/-- Big-endian byte decomposition of a natural number into exactly `w`
bytes (most significant first), truncating above `256 ^ w`. -/
def natToBytesBE : Nat → Nat → List Nat
  | 0, _ => []
  | w + 1, n => natToBytesBE w (n / 256) ++ [n % 256]

/-- Reassembling a big-endian byte list into a natural number. -/
def bytesToNatBE : List Nat → Nat
  | [] => 0
  | b :: rest => b * 256 ^ rest.length + bytesToNatBE rest

/-- One 16-bit word from two consecutive bytes: with `Big` byte order the
first byte is the most significant byte of the word, with `Little` the
least significant. -/
def mkWord (bo : Endianness) (a b : Nat) : Nat :=
  match bo with
  | Endianness.Big => 256 * a + b
  | Endianness.Little => 256 * b + a

/-- The two bytes of a word, in stream order, per byte order. -/
def wordToBytes (bo : Endianness) (w : Nat) : List Nat :=
  match bo with
  | Endianness.Big => [w / 256 % 256, w % 256]
  | Endianness.Little => [w % 256, w / 256 % 256]

/-- Grouping a byte stream two-by-two into words (a trailing lone byte is
completed with a zero pad; encoders below always supply an even number). -/
def bytesToWords (bo : Endianness) : List Nat → List Nat
  | [] => []
  | [a] => [mkWord bo a 0]
  | a :: b :: rest => mkWord bo a b :: bytesToWords bo rest

/-- Flattening words back into their byte stream. -/
def wordsToBytes (bo : Endianness) : List Nat → List Nat
  | [] => []
  | w :: ws => wordToBytes bo w ++ wordsToBytes bo ws

/-- Word order: `Big` transmits the most significant word first (the order
`bytesToWords` produces), `Little` reverses the word sequence. -/
def applyWordOrder (wo : Endianness) (ws : List Nat) : List Nat :=
  match wo with
  | Endianness.Big => ws
  | Endianness.Little => ws.reverse

/-- Bytes to wire-ready words: group per byte order, then apply word order. -/
def pack (bo wo : Endianness) (bytes : List Nat) : List Nat :=
  applyWordOrder wo (bytesToWords bo bytes)

/-- Inverse direction: undo the word order, then flatten words to bytes. -/
def unpack (bo wo : Endianness) (ws : List Nat) : List Nat :=
  wordsToBytes bo (applyWordOrder wo ws)

/-- Pad a byte list to even length with one zero byte (spec §4.1: `String`
"uses one word per two characters (padded)"). -/
def padEven (bytes : List Nat) : List Nat :=
  if bytes.length % 2 = 0 then bytes else bytes ++ [0]

/-- The byte width and signedness of each integer data type (spec §3:
word-widths 1,1,2,2,2,4,4,4 and two's complement for signed types);
`none` for the non-integer types. -/
def intSpec : DataType → Option (Nat × Bool)
  | DataType.UINT16 => some (2, false)
  | DataType.INT16 => some (2, true)
  | DataType.UINT32 => some (4, false)
  | DataType.INT32 => some (4, true)
  | DataType.UINT64 => some (8, false)
  | DataType.INT64 => some (8, true)
  | _ => none

/-- Two's-complement encoding of an integer into `w` bytes, wrapping
modulo `256 ^ w` (spec §4.1: integer encode "truncates/wraps to the type's
bit width ... rather than raising on overflow"). -/
def wrapBytes (w : Nat) (i : Int) : List Nat :=
  natToBytesBE w (i % ((256 ^ w : Nat) : Int)).toNat

/-- Two's-complement read-back of `w` bytes: unsigned value, minus
`256 ^ w` when a signed type's sign bit is set. -/
def decodeInt (signed : Bool) (w : Nat) (bytes : List Nat) : Int :=
  if signed = true ∧ 256 ^ w ≤ 2 * bytesToNatBE bytes then
    (bytesToNatBE bytes : Int) - ((256 ^ w : Nat) : Int)
  else (bytesToNatBE bytes : Int)

/-- Modelled from the spec: `encode(dataType, value, byteOrder, wordOrder)`
of §4.1, which the repository delegates to pymodbus — value to fixed-width
big-endian bytes (wrapping integers, raw IEEE-754 patterns, padded
character bytes, one word with the boolean flag in its low bit), then bytes
to words per `byteOrder` and `wordOrder`. `none` when the value's shape
does not belong to the data type. -/
def encode (dt : DataType) (bo wo : Endianness) (v : CodecValue) : Option (List Nat) :=
  match dt, v with
  | DataType.FLOAT32, CodecValue.bits32 n => some (pack bo wo (natToBytesBE 4 n))
  | DataType.FLOAT64, CodecValue.bits64 n => some (pack bo wo (natToBytesBE 8 n))
  | DataType.STRING, CodecValue.chars cs => some (pack bo wo (padEven (cs.map fun c => c % 256)))
  | DataType.BOOLEAN, CodecValue.flag b => some (pack bo wo [0, if b then 1 else 0])
  | dt', CodecValue.int i =>
      match intSpec dt' with
      | some (w, _) => some (pack bo wo (wrapBytes w i))
      | none => none
  | _, _ => none

/-- Modelled from the spec: `decode(dataType, words, byteOrder, wordOrder)`
of §4.1, absent from the repository — fails (the spec's `InvalidEncoding`)
when the word count does not match the type's fixed requirement (`String`
is variable-width, accepting any number of words), otherwise undoes the
ordering and reassembles the typed value. -/
def decode (dt : DataType) (bo wo : Endianness) (ws : List Nat) : Option CodecValue :=
  match dt with
  | DataType.FLOAT32 =>
      if ws.length = 2 then some (CodecValue.bits32 (bytesToNatBE (unpack bo wo ws))) else none
  | DataType.FLOAT64 =>
      if ws.length = 4 then some (CodecValue.bits64 (bytesToNatBE (unpack bo wo ws))) else none
  | DataType.STRING => some (CodecValue.chars (unpack bo wo ws))
  | DataType.BOOLEAN =>
      if ws.length = 1 then
        some (CodecValue.flag (decide (bytesToNatBE (unpack bo wo ws) % 2 = 1)))
      else none
  | dt' =>
      match intSpec dt' with
      | some (w, s) =>
          if ws.length = w / 2 then some (CodecValue.int (decodeInt s w (unpack bo wo ws))) else none
      | none => none

/-- Modelled from the spec: which values §3 calls representable by each
data type — integers within the type's (signed or unsigned) range, bit
patterns within the type's width, strings of byte-sized character codes,
both booleans. -/
def representable : DataType → CodecValue → Bool
  | DataType.UINT16, CodecValue.int i => decide (0 ≤ i) && decide (i < 2 ^ 16)
  | DataType.INT16, CodecValue.int i => decide (-(2 ^ 15) ≤ i) && decide (i < 2 ^ 15)
  | DataType.UINT32, CodecValue.int i => decide (0 ≤ i) && decide (i < 2 ^ 32)
  | DataType.INT32, CodecValue.int i => decide (-(2 ^ 31) ≤ i) && decide (i < 2 ^ 31)
  | DataType.UINT64, CodecValue.int i => decide (0 ≤ i) && decide (i < 2 ^ 64)
  | DataType.INT64, CodecValue.int i => decide (-(2 ^ 63) ≤ i) && decide (i < 2 ^ 63)
  | DataType.FLOAT32, CodecValue.bits32 n => decide (n < 2 ^ 32)
  | DataType.FLOAT64, CodecValue.bits64 n => decide (n < 2 ^ 64)
  | DataType.STRING, CodecValue.chars cs => cs.all fun c => decide (c < 256)
  | DataType.BOOLEAN, CodecValue.flag _ => true
  | _, _ => false

example : encode DataType.UINT32 Endianness.Big Endianness.Little (CodecValue.int 0x12345678)
    = some [0x5678, 0x1234] := by decide

example : encode DataType.INT16 Endianness.Big Endianness.Big (CodecValue.int (-2))
    = some [0xFFFE] := by decide

example : decode DataType.INT16 Endianness.Big Endianness.Big [0xFFFE]
    = some (CodecValue.int (-2)) := by decide

example : (encode DataType.STRING Endianness.Big Endianness.Big (CodecValue.chars [65])).bind
    (decode DataType.STRING Endianness.Big Endianness.Big)
    = some (CodecValue.chars [65, 0]) := by decide

example : (encode DataType.BOOLEAN Endianness.Little Endianness.Big (CodecValue.flag true)).bind
    (decode DataType.BOOLEAN Endianness.Little Endianness.Big)
    = some (CodecValue.flag true) := by decide

/-! Codec round-trip lemmas. -/

theorem length_natToBytesBE : ∀ (w n : Nat), (natToBytesBE w n).length = w
  | 0, _ => rfl
  | w + 1, n => by simp [natToBytesBE, length_natToBytesBE w (n / 256)]

theorem mem_natToBytesBE_lt : ∀ (w n : Nat), ∀ b ∈ natToBytesBE w n, b < 256
  | 0, _, b, hb => by simp [natToBytesBE] at hb
  | w + 1, n, b, hb => by
      simp only [natToBytesBE, List.mem_append, List.mem_singleton] at hb
      rcases hb with hb | hb
      · exact mem_natToBytesBE_lt w (n / 256) b hb
      · subst hb
        exact Nat.mod_lt _ (by omega)

theorem bytesToNatBE_append (l1 l2 : List Nat) :
    bytesToNatBE (l1 ++ l2) = bytesToNatBE l1 * 256 ^ l2.length + bytesToNatBE l2 := by
  induction l1 with
  | nil => simp [bytesToNatBE]
  | cons b l ih =>
      simp [bytesToNatBE, ih, List.length_append, pow_add]
      ring

theorem bytesToNatBE_natToBytesBE : ∀ (w n : Nat), bytesToNatBE (natToBytesBE w n) = n % 256 ^ w
  | 0, n => by simp [natToBytesBE, bytesToNatBE, Nat.mod_one]
  | w + 1, n => by
      rw [natToBytesBE, bytesToNatBE_append, bytesToNatBE_natToBytesBE w (n / 256)]
      simp only [bytesToNatBE, List.length_singleton, List.length_nil, pow_one, pow_zero,
        mul_one, Nat.add_zero]
      rw [show (256 : Nat) ^ (w + 1) = 256 * 256 ^ w from by ring, Nat.mod_mul]
      ring

theorem applyWordOrder_applyWordOrder (wo : Endianness) (ws : List Nat) :
    applyWordOrder wo (applyWordOrder wo ws) = ws := by
  cases wo <;> simp [applyWordOrder]

theorem wordsToBytes_bytesToWords (bo : Endianness) :
    ∀ (bytes : List Nat), (∀ b ∈ bytes, b < 256) → bytes.length % 2 = 0 →
      wordsToBytes bo (bytesToWords bo bytes) = bytes
  | [], _, _ => rfl
  | [a], _, he => by simp at he
  | a :: b :: rest, hb, he => by
      have ha' : a < 256 := hb a (by simp)
      have hb' : b < 256 := hb b (by simp)
      have he' : rest.length % 2 = 0 := by simp at he; omega
      have ih := wordsToBytes_bytesToWords bo rest (fun x hx => hb x (by simp [hx])) he'
      cases bo <;> simp [bytesToWords, wordsToBytes, wordToBytes, mkWord, ih] <;> omega

theorem unpack_pack (bo wo : Endianness) (bytes : List Nat)
    (hb : ∀ b ∈ bytes, b < 256) (he : bytes.length % 2 = 0) :
    unpack bo wo (pack bo wo bytes) = bytes := by
  unfold unpack pack
  rw [applyWordOrder_applyWordOrder]
  exact wordsToBytes_bytesToWords bo bytes hb he

theorem length_bytesToWords (bo : Endianness) :
    ∀ (bytes : List Nat), (bytesToWords bo bytes).length = (bytes.length + 1) / 2
  | [] => rfl
  | [a] => by simp [bytesToWords]
  | a :: b :: rest => by
      simp [bytesToWords, length_bytesToWords bo rest]
      omega

theorem length_pack (bo wo : Endianness) (bytes : List Nat) :
    (pack bo wo bytes).length = (bytes.length + 1) / 2 := by
  unfold pack
  cases wo <;> simp [applyWordOrder, length_bytesToWords]

theorem length_wrapBytes (w : Nat) (i : Int) : (wrapBytes w i).length = w :=
  length_natToBytesBE w _

theorem mem_wrapBytes_lt (w : Nat) (i : Int) : ∀ b ∈ wrapBytes w i, b < 256 :=
  mem_natToBytesBE_lt w _

theorem decodeInt_false_wrap (w : Nat) (i : Int) (h0 : 0 ≤ i)
    (h1 : i < ((256 ^ w : Nat) : Int)) :
    decodeInt false w (wrapBytes w i) = i := by
  unfold decodeInt wrapBytes
  rw [bytesToNatBE_natToBytesBE, Int.emod_eq_of_lt h0 h1]
  have hlt : i.toNat < 256 ^ w := by omega
  rw [Nat.mod_eq_of_lt hlt, if_neg (by simp)]
  exact Int.toNat_of_nonneg h0

theorem decodeInt_true_wrap (w H : Nat) (hH : 256 ^ w = 2 * H) (i : Int)
    (h0 : -(H : Int) ≤ i) (h1 : i < (H : Int)) :
    decodeInt true w (wrapBytes w i) = i := by
  unfold decodeInt wrapBytes
  rw [bytesToNatBE_natToBytesBE]
  have hM2 : ((256 ^ w : Nat) : Int) = 2 * (H : Int) := by exact_mod_cast hH
  by_cases hneg : 0 ≤ i
  · rw [Int.emod_eq_of_lt hneg (by omega)]
    have hlt : i.toNat < 256 ^ w := by omega
    rw [Nat.mod_eq_of_lt hlt]
    have hcond : ¬(true = true ∧ 256 ^ w ≤ 2 * i.toNat) := by
      rintro ⟨-, hc⟩
      omega
    rw [if_neg hcond]
    exact Int.toNat_of_nonneg hneg
  · push_neg at hneg
    have hmod : i % ((256 ^ w : Nat) : Int) = i + ((256 ^ w : Nat) : Int) := by
      have hrw : (i + ((256 ^ w : Nat) : Int)) % ((256 ^ w : Nat) : Int)
          = i % ((256 ^ w : Nat) : Int) := by
        conv_lhs =>
          rw [show i + ((256 ^ w : Nat) : Int) = i + ((256 ^ w : Nat) : Int) * 1 from by ring]
        rw [Int.add_mul_emod_self_left]
      rw [← hrw]
      exact Int.emod_eq_of_lt (by omega) (by omega)
    rw [hmod]
    have hu_lt : (i + ((256 ^ w : Nat) : Int)).toNat < 256 ^ w := by omega
    rw [Nat.mod_eq_of_lt hu_lt]
    rw [if_pos ⟨rfl, by omega⟩]
    omega

theorem map_mod_self (cs : List Nat) (h : ∀ c ∈ cs, c < 256) :
    cs.map (fun c => c % 256) = cs := by
  induction cs with
  | nil => rfl
  | cons c cs ih =>
      simp only [List.map_cons]
      rw [Nat.mod_eq_of_lt (h c (by simp)), ih (fun x hx => h x (by simp [hx]))]

/-- C4 counterexample: the exact round-trip cannot hold for every
representable `String` value: the one-character string and that string
extended by the pad byte have the same encoding, so no decoder maps the
common word sequence back to both; the modelled decoder returns the padded
two-character value for the odd-length input. -/
theorem string_roundtrip_fails :
    encode DataType.STRING Endianness.Big Endianness.Big (CodecValue.chars [65])
      = encode DataType.STRING Endianness.Big Endianness.Big (CodecValue.chars [65, 0]) ∧
    CodecValue.chars [65] ≠ CodecValue.chars [65, 0] ∧
    (encode DataType.STRING Endianness.Big Endianness.Big (CodecValue.chars [65])).bind
      (decode DataType.STRING Endianness.Big Endianness.Big)
      = some (CodecValue.chars [65, 0]) ∧
    representable DataType.STRING (CodecValue.chars [65]) = true := by
  decide

/-- C4 (amended): the codec round-trip `decode (encode v) = v` holds exactly,
for every byte order, word order, data type and representable value, with
the single exception forced by `String` padding: for `String` the value must
already fill whole words (even length — odd-length values decode to the
value extended by one pad byte). -/
theorem codec_roundtrip (dt : DataType) (bo wo : Endianness) (v : CodecValue)
    (hrep : representable dt v = true)
    (hstr : ∀ cs, v = CodecValue.chars cs → cs.length % 2 = 0) :
    (encode dt bo wo v).bind (decode dt bo wo) = some v := by
  cases v with
  | int i =>
      cases dt <;> simp only [representable, Bool.and_eq_true, decide_eq_true_eq,
        Bool.false_eq_true] at hrep
      case UINT16 =>
          obtain ⟨h0, h1⟩ := hrep
          have hd : decodeInt false 2 (wrapBytes 2 i) = i :=
            decodeInt_false_wrap 2 i h0 (by push_cast; norm_num at h1 ⊢; exact h1)
          have hup := unpack_pack bo wo (wrapBytes 2 i) (mem_wrapBytes_lt 2 i)
            (by rw [length_wrapBytes])
          have hlen : (pack bo wo (wrapBytes 2 i)).length = 1 := by
            rw [length_pack, length_wrapBytes]
          simp [encode, decode, intSpec, hlen, hup, hd]
      case INT16 =>
          obtain ⟨h0, h1⟩ := hrep
          have hd : decodeInt true 2 (wrapBytes 2 i) = i :=
            decodeInt_true_wrap 2 32768 (by norm_num) i
              (by norm_num at h0; exact_mod_cast h0)
              (by norm_num at h1; exact_mod_cast h1)
          have hup := unpack_pack bo wo (wrapBytes 2 i) (mem_wrapBytes_lt 2 i)
            (by rw [length_wrapBytes])
          have hlen : (pack bo wo (wrapBytes 2 i)).length = 1 := by
            rw [length_pack, length_wrapBytes]
          simp [encode, decode, intSpec, hlen, hup, hd]
      case UINT32 =>
          obtain ⟨h0, h1⟩ := hrep
          have hd : decodeInt false 4 (wrapBytes 4 i) = i :=
            decodeInt_false_wrap 4 i h0 (by push_cast; norm_num at h1 ⊢; exact h1)
          have hup := unpack_pack bo wo (wrapBytes 4 i) (mem_wrapBytes_lt 4 i)
            (by rw [length_wrapBytes])
          have hlen : (pack bo wo (wrapBytes 4 i)).length = 2 := by
            rw [length_pack, length_wrapBytes]
          simp [encode, decode, intSpec, hlen, hup, hd]
      case INT32 =>
          obtain ⟨h0, h1⟩ := hrep
          have hd : decodeInt true 4 (wrapBytes 4 i) = i :=
            decodeInt_true_wrap 4 2147483648 (by norm_num) i
              (by norm_num at h0; exact_mod_cast h0)
              (by norm_num at h1; exact_mod_cast h1)
          have hup := unpack_pack bo wo (wrapBytes 4 i) (mem_wrapBytes_lt 4 i)
            (by rw [length_wrapBytes])
          have hlen : (pack bo wo (wrapBytes 4 i)).length = 2 := by
            rw [length_pack, length_wrapBytes]
          simp [encode, decode, intSpec, hlen, hup, hd]
      case UINT64 =>
          obtain ⟨h0, h1⟩ := hrep
          have hd : decodeInt false 8 (wrapBytes 8 i) = i :=
            decodeInt_false_wrap 8 i h0 (by push_cast; norm_num at h1 ⊢; exact h1)
          have hup := unpack_pack bo wo (wrapBytes 8 i) (mem_wrapBytes_lt 8 i)
            (by rw [length_wrapBytes])
          have hlen : (pack bo wo (wrapBytes 8 i)).length = 4 := by
            rw [length_pack, length_wrapBytes]
          simp [encode, decode, intSpec, hlen, hup, hd]
      case INT64 =>
          obtain ⟨h0, h1⟩ := hrep
          have hd : decodeInt true 8 (wrapBytes 8 i) = i :=
            decodeInt_true_wrap 8 9223372036854775808 (by norm_num) i
              (by norm_num at h0; exact_mod_cast h0)
              (by norm_num at h1; exact_mod_cast h1)
          have hup := unpack_pack bo wo (wrapBytes 8 i) (mem_wrapBytes_lt 8 i)
            (by rw [length_wrapBytes])
          have hlen : (pack bo wo (wrapBytes 8 i)).length = 4 := by
            rw [length_pack, length_wrapBytes]
          simp [encode, decode, intSpec, hlen, hup, hd]
  | bits32 n =>
      cases dt <;> simp only [representable, decide_eq_true_eq, Bool.false_eq_true] at hrep
      case FLOAT32 =>
          have hval : bytesToNatBE (natToBytesBE 4 n) = n := by
            rw [bytesToNatBE_natToBytesBE]
            exact Nat.mod_eq_of_lt (by norm_num at hrep ⊢; exact hrep)
          have hup := unpack_pack bo wo (natToBytesBE 4 n) (mem_natToBytesBE_lt 4 n)
            (by rw [length_natToBytesBE])
          have hlen : (pack bo wo (natToBytesBE 4 n)).length = 2 := by
            rw [length_pack, length_natToBytesBE]
          simp [encode, decode, hlen, hup, hval]
  | bits64 n =>
      cases dt <;> simp only [representable, decide_eq_true_eq, Bool.false_eq_true] at hrep
      case FLOAT64 =>
          have hval : bytesToNatBE (natToBytesBE 8 n) = n := by
            rw [bytesToNatBE_natToBytesBE]
            exact Nat.mod_eq_of_lt (by norm_num at hrep ⊢; exact hrep)
          have hup := unpack_pack bo wo (natToBytesBE 8 n) (mem_natToBytesBE_lt 8 n)
            (by rw [length_natToBytesBE])
          have hlen : (pack bo wo (natToBytesBE 8 n)).length = 4 := by
            rw [length_pack, length_natToBytesBE]
          simp [encode, decode, hlen, hup, hval]
  | chars cs =>
      cases dt <;> simp only [representable, List.all_eq_true, decide_eq_true_eq,
        Bool.false_eq_true] at hrep
      case STRING =>
          have heven : cs.length % 2 = 0 := hstr cs rfl
          have hmap : cs.map (fun c => c % 256) = cs := map_mod_self cs hrep
          have hpad : padEven cs = cs := by unfold padEven; rw [if_pos heven]
          have hup := unpack_pack bo wo cs hrep heven
          simp [encode, decode, hmap, hpad, hup]
  | flag b =>
      cases dt <;> simp only [representable, Bool.false_eq_true] at hrep
      case BOOLEAN => cases b <;> cases bo <;> cases wo <;> decide

/-- Witness for the C4 theorem: `INT32`, little byte order, little word
order, value -5. -/
theorem codec_roundtrip_witness :
    (encode DataType.INT32 Endianness.Little Endianness.Little (CodecValue.int (-5))).bind
      (decode DataType.INT32 Endianness.Little Endianness.Little)
      = some (CodecValue.int (-5)) :=
  codec_roundtrip DataType.INT32 Endianness.Little Endianness.Little (CodecValue.int (-5))
    (by decide) (fun cs h => nomatch h)

end ModbusSim
